import Mathlib

/-!
Verification of the flash-region abstraction layer described by the
repository's design document against the interface declared in
`boot/zephyr/include/flash_map_backend/flash_map_backend.h`.

The header declares two entry points:

  int flash_device_base(uint8_t fd_id, uintptr_t *ret);
  int flash_area_id_from_image_slot(int slot);

Their implementations (device registry, region table, slot resolver and
access layer) are not part of the sources here, so those components are
modelled from the specification's own words, as noted on each definition.
Machine integers are modelled as `Nat`/`Int` with explicit reductions where
the C types force them.
-/

namespace FMap

/-- The error taxonomy of the design document, section 7.
`OverlappingRegions` carries the two conflicting region ids. -/
inductive FlashError where
  | DuplicateDevice
  | UnknownDevice
  | NotMemoryMapped
  | OverlappingRegions (id1 id2 : Nat)
  | DanglingDeviceReference
  | MisalignedRegionSize
  | RegionNotFound
  | OutOfRange
  | UnknownSlot
  | SlotAliasing
  | AlignmentViolation
  | DeviceIOError
deriving DecidableEq, Repr

/-- Modelled from the spec: a device descriptor has an identifier, a base
address present only when the device is memory-mapped, and a
write-alignment unit. -/
structure DeviceDescriptor where
  id : Nat
  base : Option Nat
  writeAlign : Nat
deriving DecidableEq, Repr

/-- Modelled from the spec: a region descriptor has a region identifier, the
owning device identifier, a device-relative offset, a total size, and an
ordered sequence of sector sizes. Offsets and sizes are non-negative by the
choice of `Nat`. -/
structure RegionDescriptor where
  id : Nat
  device : Nat
  offset : Nat
  size : Nat
  sectors : List Nat
deriving DecidableEq, Repr

/-- Modelled from the spec: the slot roles of the slot mapping. -/
inductive SlotRole where
  | primary
  | secondary
  | scratch
deriving DecidableEq, Repr

/-- Modelled from the spec: the canonical key of the slot mapping, an
(image index, slot role) pair. -/
structure SlotKey where
  image : Nat
  role : SlotRole
deriving DecidableEq, Repr

/-- Modelled from the spec: a successfully built map holds the device
registry, the region table and the derived slot mapping, all immutable. -/
structure FlashMap where
  devices : List DeviceDescriptor
  regions : List RegionDescriptor
  slots : List (SlotKey × Nat)
deriving DecidableEq, Repr

/-- Two region descriptors conflict when they share a device and their
byte ranges `[offset, offset+size)` intersect. -/
def regionsOverlap (a b : RegionDescriptor) : Bool :=
  decide (a.device = b.device ∧ a.offset < b.offset + b.size ∧
    b.offset < a.offset + a.size)

/-- Two slot-mapping entries alias when their keys differ but they name the
same region id. -/
def slotAlias (a b : SlotKey × Nat) : Bool :=
  decide (a.1 ≠ b.1 ∧ a.2 = b.2)

/-- Scans a list for the first pair of elements (in order of position)
satisfying a binary predicate; used for the pairwise build-time checks. -/
def findPair (p : α → α → Bool) : List α → Option (α × α)
  | [] => none
  | x :: xs =>
    match xs.find? (p x) with
    | some y => some (x, y)
    | none => findPair p xs

/-- A region's owning device id is known to the registry. -/
def deviceKnown (devs : List DeviceDescriptor) (did : Nat) : Bool :=
  devs.any (fun d => d.id == did)

/-- Modelled from the spec: the region size is positive, the declared sector
geometry sums to the total size, and each sector is nonempty. -/
def regionSizeValid (r : RegionDescriptor) : Bool :=
  decide (0 < r.size ∧ r.sectors.sum = r.size ∧ ∀ s ∈ r.sectors, 0 < s)

/-- Modelled from the spec: `build(descriptors)` validates, in the order the
contract lists them, the pairwise disjointness of regions sharing a device
(failing with `OverlappingRegions` naming the conflicting ids), that every
region's device exists (`DanglingDeviceReference`), the sector geometry
(`MisalignedRegionSize`), and that no two distinct slot keys name the same
region id (`SlotAliasing`). On success it returns the immutable map. -/
def build (devs : List DeviceDescriptor) (regs : List RegionDescriptor)
    (slots : List (SlotKey × Nat)) : Except FlashError FlashMap :=
  match findPair regionsOverlap regs with
  | some (a, b) => .error (.OverlappingRegions a.id b.id)
  | none =>
    if regs.all (fun r => deviceKnown devs r.device) then
      if regs.all regionSizeValid then
        match findPair slotAlias slots with
        | some _ => .error .SlotAliasing
        | none => .ok ⟨devs, regs, slots⟩
      else .error .MisalignedRegionSize
    else .error .DanglingDeviceReference

/-- Modelled from the spec: `lookup(region_id)` returns the descriptor or
fails with `RegionNotFound`. -/
def lookup (t : FlashMap) (rid : Nat) : Except FlashError RegionDescriptor :=
  match t.regions.find? (fun r => r.id == rid) with
  | some r => .ok r
  | none => .error .RegionNotFound

/-- Scans the sector list for the sector containing `off`, carrying the
index `idx` and start address `start` of the first unscanned sector;
returns the sector index with its `[start, stop)` boundaries. -/
def sectorAtAux : List Nat → Nat → Nat → Nat → Option (Nat × Nat × Nat)
  | [], _, _, _ => none
  | s :: ss, off, idx, start =>
    if off < start + s then some (idx, start, start + s)
    else sectorAtAux ss off (idx + 1) (start + s)

/-- Modelled from the spec: `sector_at(region_id, byte_offset)` returns the
sector index and sector boundaries containing `byte_offset` within the
region, or fails with `OutOfRange` if `byte_offset >= size`. -/
def sector_at (t : FlashMap) (rid off : Nat) :
    Except FlashError (Nat × Nat × Nat) :=
  match lookup t rid with
  | .error e => .error e
  | .ok r =>
    if off < r.size then
      match sectorAtAux r.sectors off 0 0 with
      | some v => .ok v
      | none => .error .OutOfRange
    else .error .OutOfRange

/-- Modelled from the spec: `resolve_slot(image_index, slot_role)` looks the
canonical key up in the derived slot mapping, failing with `UnknownSlot`
when absent. -/
def resolve_slot (t : FlashMap) (image : Nat) (role : SlotRole) :
    Except FlashError Nat :=
  match t.slots.find? (fun e => decide (e.1 = ⟨image, role⟩)) with
  | some e => .ok e.2
  | none => .error .UnknownSlot

/-- Modelled from the spec: the single-image convention behind the header's
`flash_area_id_from_image_slot(int slot)` — the image index defaults to 0
and the slot ordinal selects the role. -/
def roleOfSlot : Nat → Option SlotRole
  | 0 => some .primary
  | 1 => some .secondary
  | 2 => some .scratch
  | _ => none

/-- Modelled from the spec: the header's `flash_area_id_from_image_slot`,
resolving a slot ordinal against the table under the single-image
convention. -/
def flash_area_id_from_image_slot (t : FlashMap) (slot : Nat) :
    Except FlashError Nat :=
  match roleOfSlot slot with
  | some role => resolve_slot t 0 role
  | none => .error .UnknownSlot

/-- The destination of a read: a linear address when the device is
memory-mapped, otherwise a device-relative driver request. -/
inductive ReadTarget where
  | mapped (addr len : Nat)
  | driver (device devOff len : Nat)
deriving DecidableEq, Repr

/-- Modelled from the spec: `read(region_id, offset, length)` checks
`offset + length <= region.size` (failing with `OutOfRange` otherwise;
`offset >= 0` holds by the `Nat` embedding) and translates
`region.offset + offset` to a linear address when the device is
memory-mapped or to a device-relative driver request otherwise. -/
def read (t : FlashMap) (rid off len : Nat) : Except FlashError ReadTarget :=
  match lookup t rid with
  | .error e => .error e
  | .ok r =>
    if off + len ≤ r.size then
      match t.devices.find? (fun d => d.id == r.device) with
      | none => .error .UnknownDevice
      | some d =>
        match d.base with
        | some b => .ok (.mapped (b + r.offset + off) len)
        | none => .ok (.driver r.device (r.offset + off) len)
    else .error .OutOfRange

/-- Modelled from the spec: `write(region_id, offset, bytes)` checks the
common bounds precondition first (`OutOfRange`) and additionally requires
`offset` and `length` to be multiples of the device's write-alignment unit
(`AlignmentViolation`); on success it yields the device-relative driver
request. -/
def write (t : FlashMap) (rid off len : Nat) :
    Except FlashError (Nat × Nat × Nat) :=
  match lookup t rid with
  | .error e => .error e
  | .ok r =>
    if off + len ≤ r.size then
      match t.devices.find? (fun d => d.id == r.device) with
      | none => .error .UnknownDevice
      | some d =>
        if off % d.writeAlign = 0 ∧ len % d.writeAlign = 0 then
          .ok (r.device, r.offset + off, len)
        else .error .AlignmentViolation
    else .error .OutOfRange

/-- Modelled from the spec: `erase(region_id, offset, length)` checks the
common bounds precondition first (`OutOfRange`) and additionally requires
`offset` and `offset + length` to fall on the enclosing sector boundaries
as computed by `sector_at` (`AlignmentViolation`); on success it yields the
device-relative driver request. -/
def erase (t : FlashMap) (rid off len : Nat) :
    Except FlashError (Nat × Nat × Nat) :=
  match lookup t rid with
  | .error e => .error e
  | .ok r =>
    if off + len ≤ r.size then
      match sector_at t rid off with
      | .error e => .error e
      | .ok (_, lo, _) =>
        if off = lo then
          match sector_at t rid (off + len - 1) with
          | .error e => .error e
          | .ok (_, _, hi) =>
            if off + len = hi then .ok (r.device, r.offset + off, len)
            else .error .AlignmentViolation
        else .error .AlignmentViolation
    else .error .OutOfRange

/-- Modelled from the spec: `resolve_base(device_id)` returns the base
address, fails with `UnknownDevice` when the id is not registered, and
fails with `NotMemoryMapped` when the device has no linear address. -/
def resolve_base (devs : List DeviceDescriptor) (fd_id : Nat) :
    Except FlashError Nat :=
  match devs.find? (fun d => d.id == fd_id) with
  | none => .error .UnknownDevice
  | some d =>
    match d.base with
    | none => .error .NotMemoryMapped
    | some b => .ok b

/-- Modelled from the spec and the header comment on `flash_device_base`:
the C-style wrapper takes the current value behind the out-pointer `ret`
and returns the pair (return code, new value behind `ret`). On success the
base address is stored and 0 is returned; on failure a nonzero code is
returned and the value behind `ret` is passed through unchanged. The codes
-19 and -22 stand for the two failure kinds; only their being nonzero and
distinct matters. -/
def flash_device_base (devs : List DeviceDescriptor) (fd_id : Nat)
    (ret : Nat) : Int × Nat :=
  match resolve_base devs fd_id with
  | .ok b => (0, b)
  | .error .UnknownDevice => (-19, ret)
  | .error _ => (-22, ret)

/-- The C integer conversion applied at the call boundary of
`flash_device_base`: the `fd_id` parameter is declared `uint8_t`
(flash_map_backend.h line 45), so a caller-supplied wider integer is
converted to the unsigned 8-bit type, which ISO C defines as reduction
modulo 2^8. -/
def fd_id_of_caller (z : Int) : Nat := (z % 256).toNat

/-- The value space of the C type `uint8_t`, the declared type of the
`fd_id` parameter of `flash_device_base` (flash_map_backend.h line 45). -/
def deviceIdValue (z : Int) : Prop := 0 ≤ z ∧ z < 256

/-- The value space of the C type `int` (32-bit), the declared type of the
slot argument and the returned area id of `flash_area_id_from_image_slot`
(flash_map_backend.h line 47). -/
def areaIdValue (z : Int) : Prop := -2147483648 ≤ z ∧ z < 2147483648

/-- The memory-mapped device of the spec's scenarios: id 0, linear base
address, write-alignment unit 512. -/
def dev0 : DeviceDescriptor := ⟨0, some 268435456, 512⟩

/-- A registered device without a linear address, for the
`NotMemoryMapped` path. -/
def dev1 : DeviceDescriptor := ⟨1, none, 1⟩

/-- Region A of the spec's scenarios: device 0, offset 0, size 4096, one
4096-byte sector. -/
def regA : RegionDescriptor := ⟨10, 0, 0, 4096, [4096]⟩

/-- Region B of the spec's scenarios: device 0, offset 4096, size 4096, one
4096-byte sector. -/
def regB : RegionDescriptor := ⟨11, 0, 4096, 4096, [4096]⟩

/-- A third, larger region on device 0: offset 8192, size 8192, two
4096-byte sectors. -/
def regD : RegionDescriptor := ⟨12, 0, 8192, 8192, [4096, 4096]⟩

/-- Region C of the spec's overlap scenario: device 0, offset 2048, size
4096 — overlapping region A. -/
def regC : RegionDescriptor := ⟨13, 0, 2048, 4096, [4096]⟩

/-- The scenario slot mapping: image 0's primary, secondary and scratch
roles name regions A, B and D. -/
def slots0 : List (SlotKey × Nat) :=
  [(⟨0, .primary⟩, 10), (⟨0, .secondary⟩, 11), (⟨0, .scratch⟩, 12)]

/-- The scenario device registry. -/
def devs0 : List DeviceDescriptor := [dev0, dev1]

/-- The scenario region descriptors. -/
def regs0 : List RegionDescriptor := [regA, regB, regD]

/-- The successfully built scenario table. -/
def table0 : FlashMap := ⟨devs0, regs0, slots0⟩

theorem findPair_eq_none_iff {α : Type} {p : α → α → Bool} {l : List α} :
    findPair p l = none ↔ l.Pairwise (fun a b => p a b = false) := by
  induction l with
  | nil => simp [findPair]
  | cons x xs ih =>
    rw [List.pairwise_cons, ← ih]
    show (match xs.find? (p x) with
      | some y => some (x, y)
      | none => findPair p xs) = none ↔ _
    cases h : xs.find? (p x) with
    | some y =>
      simp only [reduceCtorEq, false_iff, not_and]
      intro hall
      have hy := List.find?_some h
      have hmem := List.mem_of_find?_eq_some h
      rw [hall y hmem] at hy
      exact absurd hy (by simp)
    | none =>
      have hall := List.find?_eq_none.mp h
      simp only [true_iff, iff_true]
      constructor
      · intro hrec
        refine ⟨fun y hy => ?_, hrec⟩
        have := hall y hy
        exact Bool.eq_false_iff.mpr this
      · intro hrec
        exact hrec.2

theorem findPair_eq_some {α : Type} {p : α → α → Bool} {l : List α} {a b : α}
    (h : findPair p l = some (a, b)) : a ∈ l ∧ b ∈ l ∧ p a b = true := by
  induction l with
  | nil => simp [findPair] at h
  | cons x xs ih =>
    have hd : findPair p (x :: xs) = (match xs.find? (p x) with
      | some y => some (x, y)
      | none => findPair p xs) := rfl
    rw [hd] at h
    cases hf : xs.find? (p x) with
    | some y =>
      rw [hf] at h
      simp only [Option.some.injEq, Prod.mk.injEq] at h
      obtain ⟨hxa, hyb⟩ := h
      subst hxa; subst hyb
      exact ⟨List.mem_cons_self _ _,
        List.mem_cons_of_mem _ (List.mem_of_find?_eq_some hf),
        List.find?_some hf⟩
    | none =>
      rw [hf] at h
      obtain ⟨ha, hb, hp⟩ := ih h
      exact ⟨List.mem_cons_of_mem _ ha, List.mem_cons_of_mem _ hb, hp⟩

theorem build_eq_ok {devs : List DeviceDescriptor}
    {regs : List RegionDescriptor} {slots : List (SlotKey × Nat)}
    {t : FlashMap} (h : build devs regs slots = .ok t) :
    t = ⟨devs, regs, slots⟩ ∧
    findPair regionsOverlap regs = none ∧
    regs.all (fun r => deviceKnown devs r.device) = true ∧
    regs.all regionSizeValid = true ∧
    findPair slotAlias slots = none := by
  unfold build at h
  cases h1 : findPair regionsOverlap regs with
  | some ab =>
    rw [h1] at h
    cases ab
    simp at h
  | none =>
    rw [h1] at h
    by_cases h2 : regs.all (fun r => deviceKnown devs r.device) = true
    · rw [if_pos h2] at h
      by_cases h3 : regs.all regionSizeValid = true
      · rw [if_pos h3] at h
        cases h4 : findPair slotAlias slots with
        | some ab2 => rw [h4] at h; simp at h
        | none =>
          rw [h4] at h
          simp only [Except.ok.injEq] at h
          exact ⟨h.symm, rfl, h2, h3, rfl⟩
      · rw [if_neg h3] at h; simp at h
    · rw [if_neg h2] at h; simp at h

theorem lookup_eq_ok {t : FlashMap} {rid : Nat} {r : RegionDescriptor}
    (h : lookup t rid = .ok r) : r ∈ t.regions ∧ r.id = rid := by
  unfold lookup at h
  cases hf : t.regions.find? (fun x => x.id == rid) with
  | none => rw [hf] at h; simp at h
  | some x =>
    rw [hf] at h
    simp only [Except.ok.injEq] at h
    subst h
    exact ⟨List.mem_of_find?_eq_some hf, by simpa using List.find?_some hf⟩

theorem take_sum_mono (ss : List Nat) {a b : Nat} (hab : a ≤ b) :
    (ss.take a).sum ≤ (ss.take b).sum := by
  have h1 : (ss.take b).take a = ss.take a := by
    rw [List.take_take, Nat.min_eq_left hab]
  calc (ss.take a).sum = ((ss.take b).take a).sum := by rw [h1]
    _ ≤ ((ss.take b).take a).sum + ((ss.take b).drop a).sum :=
        Nat.le_add_right _ _
    _ = (ss.take b).sum := by rw [← List.sum_append, List.take_append_drop]

theorem sectorAtAux_spec (ss : List Nat) (off idx start : Nat)
    (h1 : start ≤ off) (h2 : off < start + ss.sum) :
    ∃ k, k < ss.length ∧
      sectorAtAux ss off idx start =
        some (idx + k, start + (ss.take k).sum, start + (ss.take (k + 1)).sum) ∧
      start + (ss.take k).sum ≤ off ∧
      off < start + (ss.take (k + 1)).sum := by
  induction ss generalizing idx start with
  | nil => simp at h2; omega
  | cons s ss ih =>
    have hd : sectorAtAux (s :: ss) off idx start =
        (if off < start + s then some (idx, start, start + s)
         else sectorAtAux ss off (idx + 1) (start + s)) := rfl
    by_cases hc : off < start + s
    · refine ⟨0, by simp, ?_, by simpa using h1, ?_⟩
      · rw [hd, if_pos hc]
        simp
      · simp only [List.take_succ_cons, List.take_zero, List.sum_cons,
          List.sum_nil]
        omega
    · have hsum : off < (start + s) + ss.sum := by
        simp only [List.sum_cons] at h2; omega
      obtain ⟨k, hk, heq, hlo, hhi⟩ :=
        ih (idx + 1) (start + s) (by omega) hsum
      refine ⟨k + 1, by simpa using hk, ?_, ?_, ?_⟩
      · rw [hd, if_neg hc, heq]
        simp only [List.take_succ_cons, List.sum_cons, Option.some.injEq,
          Prod.mk.injEq]
        omega
      · simp only [List.take_succ_cons, List.sum_cons]; omega
      · simp only [List.take_succ_cons, List.sum_cons]; omega

theorem sector_unique {ss : List Nat} {off j k : Nat}
    (hj1 : (ss.take j).sum ≤ off) (hj2 : off < (ss.take (j + 1)).sum)
    (hk1 : (ss.take k).sum ≤ off) (hk2 : off < (ss.take (k + 1)).sum) :
    j = k := by
  rcases Nat.lt_trichotomy j k with h | h | h
  · have := take_sum_mono ss (show j + 1 ≤ k from h)
    omega
  · exact h
  · have := take_sum_mono ss (show k + 1 ≤ j from h)
    omega

instance instDecEqExcept {ε α : Type} [DecidableEq ε] [DecidableEq α] :
    DecidableEq (Except ε α)
  | .ok a, .ok b => decidable_of_iff (a = b) (by simp)
  | .ok _, .error _ => .isFalse (by simp)
  | .error _, .ok _ => .isFalse (by simp)
  | .error a, .error b => decidable_of_iff (a = b) (by simp)

theorem resolve_slot_eq_ok {t : FlashMap} {image : Nat} {role : SlotRole}
    {rid : Nat} (h : resolve_slot t image role = .ok rid) :
    ∃ e, e ∈ t.slots ∧ e.1 = SlotKey.mk image role ∧ e.2 = rid := by
  unfold resolve_slot at h
  cases hf : t.slots.find? (fun e => decide (e.1 = ⟨image, role⟩)) with
  | none => rw [hf] at h; simp at h
  | some e =>
    rw [hf] at h
    simp only [Except.ok.injEq] at h
    exact ⟨e, List.mem_of_find?_eq_some hf,
      by simpa using List.find?_some hf, h⟩

/-- C1: in every successfully built region table, any two regions at
distinct positions that share a device have disjoint
`[offset, offset+size)` byte ranges; and whenever the input descriptors
contain an overlapping pair, `build` fails with `OverlappingRegions`
naming the ids of a conflicting pair of input regions. -/
theorem build_disjoint_overlap_rejected
    (devs : List DeviceDescriptor) (regs : List RegionDescriptor)
    (slots : List (SlotKey × Nat)) :
    (∀ t, build devs regs slots = .ok t →
      ∀ (i j : Fin t.regions.length), i ≠ j →
        (t.regions.get i).device = (t.regions.get j).device →
        (t.regions.get i).offset + (t.regions.get i).size ≤
            (t.regions.get j).offset ∨
        (t.regions.get j).offset + (t.regions.get j).size ≤
            (t.regions.get i).offset) ∧
    ((∃ (i j : Fin regs.length), i < j ∧
        regionsOverlap (regs.get i) (regs.get j) = true) →
      ∃ r1 r2, r1 ∈ regs ∧ r2 ∈ regs ∧ regionsOverlap r1 r2 = true ∧
        build devs regs slots =
          .error (.OverlappingRegions r1.id r2.id)) := by
  constructor
  · intro t ht i j hij hdev
    obtain ⟨hteq, hov, -, -, -⟩ := build_eq_ok ht
    subst hteq
    have hpair : regs.Pairwise (fun a b => regionsOverlap a b = false) :=
      findPair_eq_none_iff.mp hov
    have hget := List.pairwise_iff_get.mp hpair
    have hij2 : i.val ≠ j.val := fun hv => hij (Fin.ext hv)
    rcases Nat.lt_trichotomy i.val j.val with h | h | h
    · have hf := hget i j h
      simp only [regionsOverlap, decide_eq_false_iff_not] at hf
      simp only [FlashMap.regions] at hdev ⊢
      omega
    · exact absurd h hij2
    · have hf := hget j i h
      simp only [regionsOverlap, decide_eq_false_iff_not] at hf
      simp only [FlashMap.regions] at hdev ⊢
      omega
  · intro hex
    obtain ⟨i, j, hij, hov⟩ := hex
    cases hfp : findPair regionsOverlap regs with
    | none =>
      have hpair := findPair_eq_none_iff.mp hfp
      have := List.pairwise_iff_get.mp hpair i j hij
      rw [hov] at this
      exact absurd this (by simp)
    | some ab =>
      obtain ⟨a, b⟩ := ab
      obtain ⟨ha, hb, hp⟩ := findPair_eq_some hfp
      refine ⟨a, b, ha, hb, hp, ?_⟩
      unfold build
      rw [hfp]

/-- Witness for C1: the spec's two-region scenario builds successfully with
regions A and B disjoint, and the overlap scenario with region C fails
naming a conflicting pair. -/
theorem build_disjoint_overlap_rejected_witness :
    (regA.offset + regA.size ≤ regB.offset ∨
     regB.offset + regB.size ≤ regA.offset) ∧
    (∃ r1 r2, r1 ∈ [regA, regC] ∧ r2 ∈ [regA, regC] ∧
      regionsOverlap r1 r2 = true ∧
      build devs0 [regA, regC] slots0 =
        .error (.OverlappingRegions r1.id r2.id)) := by
  constructor
  · exact (build_disjoint_overlap_rejected devs0 regs0 slots0).1 table0 rfl
      ⟨0, by decide⟩ ⟨1, by decide⟩ (by decide) rfl
  · exact (build_disjoint_overlap_rejected devs0 [regA, regC] slots0).2
      ⟨⟨0, by decide⟩, ⟨1, by decide⟩, by decide, by decide⟩

/-- C2: for every region of a table and every (offset, length) request
with offset + length > region.size, each of read, write and erase fails
with `OutOfRange` before any translated request is produced; the
requirement offset >= 0 holds by the `Nat` embedding of the offset. -/
theorem access_out_of_range (t : FlashMap) (rid off len : Nat)
    (r : RegionDescriptor) (hl : lookup t rid = .ok r)
    (h : r.size < off + len) :
    read t rid off len = .error .OutOfRange ∧
    write t rid off len = .error .OutOfRange ∧
    erase t rid off len = .error .OutOfRange := by
  have hnle : ¬ (off + len ≤ r.size) := by omega
  refine ⟨?_, ?_, ?_⟩
  · unfold read
    rw [hl]
    exact if_neg hnle
  · unfold write
    rw [hl]
    exact if_neg hnle
  · unfold erase
    rw [hl]
    exact if_neg hnle

/-- Witness for C2: the spec's scenario write(A_id, 4096, 1) is out of
range on region A of size 4096, and so are the matching read and erase. -/
theorem access_out_of_range_witness :
    lookup table0 10 = .ok regA ∧ regA.size < 4096 + 1 ∧
    (read table0 10 4096 1 = .error .OutOfRange ∧
     write table0 10 4096 1 = .error .OutOfRange ∧
     erase table0 10 4096 1 = .error .OutOfRange) :=
  ⟨rfl, by decide, access_out_of_range table0 10 4096 1 regA rfl (by decide)⟩

/-- C3: in every successfully built table the slot resolution is
injective — two successful resolutions to the same region id come from the
same (image index, slot role) key — and a slot mapping containing two
distinct keys naming the same region id is rejected at build time with
`SlotAliasing` (once the region checks preceding it in the build order
pass). -/
theorem resolve_slot_injective (devs : List DeviceDescriptor)
    (regs : List RegionDescriptor) (slots : List (SlotKey × Nat)) :
    (∀ t i1 ro1 i2 ro2 rid, build devs regs slots = .ok t →
      resolve_slot t i1 ro1 = .ok rid → resolve_slot t i2 ro2 = .ok rid →
      i1 = i2 ∧ ro1 = ro2) ∧
    ((∃ (i j : Fin slots.length), i < j ∧
        slotAlias (slots.get i) (slots.get j) = true) →
      findPair regionsOverlap regs = none →
      regs.all (fun r => deviceKnown devs r.device) = true →
      regs.all regionSizeValid = true →
      build devs regs slots = .error .SlotAliasing) := by
  constructor
  · intro t i1 ro1 i2 ro2 rid hb h1 h2
    obtain ⟨hteq, -, -, -, halias⟩ := build_eq_ok hb
    subst hteq
    obtain ⟨e1, he1, hk1, hv1⟩ := resolve_slot_eq_ok h1
    obtain ⟨e2, he2, hk2, hv2⟩ := resolve_slot_eq_ok h2
    simp only [FlashMap.slots] at he1 he2
    have hpair : slots.Pairwise (fun a b => slotAlias a b = false) :=
      findPair_eq_none_iff.mp halias
    have hpair2 : slots.Pairwise (fun a b => a.1 = b.1 ∨ a.2 ≠ b.2) := by
      refine hpair.imp ?_
      intro a b hab
      simp only [slotAlias, decide_eq_false_iff_not, not_and] at hab
      by_cases hk : a.1 = b.1
      · exact Or.inl hk
      · exact Or.inr (hab hk)
    have hsymm : Symmetric (fun a b : SlotKey × Nat => a.1 = b.1 ∨ a.2 ≠ b.2) := by
      intro a b hab
      rcases hab with h | h
      · exact Or.inl h.symm
      · exact Or.inr (fun he => h he.symm)
    by_cases heq : e1 = e2
    · have : e1.1 = e2.1 := by rw [heq]
      rw [hk1, hk2] at this
      exact ⟨congrArg SlotKey.image this, congrArg SlotKey.role this⟩
    · have hr := hpair2.forall hsymm he1 he2 heq
      rcases hr with h | h
      · rw [hk1, hk2] at h
        exact ⟨congrArg SlotKey.image h, congrArg SlotKey.role h⟩
      · rw [hv1, hv2] at h
        exact absurd rfl h
  · intro hex hov hdev hsz
    obtain ⟨i, j, hij, hal⟩ := hex
    unfold build
    rw [hov, if_pos hdev, if_pos hsz]
    cases hfp : findPair slotAlias slots with
    | none =>
      have hpair := findPair_eq_none_iff.mp hfp
      have := List.pairwise_iff_get.mp hpair i j hij
      rw [hal] at this
      exact absurd this (by simp)
    | some ab => rfl

/-- An aliased slot mapping for the C3 witness: two distinct keys naming
region id 10. -/
def slotsAliased : List (SlotKey × Nat) :=
  [(⟨0, .primary⟩, 10), (⟨0, .secondary⟩, 10)]

/-- Witness for C3: on the built scenario table, two resolutions of region
id 10 must come from the same key, and the aliased mapping is rejected
with `SlotAliasing`. -/
theorem resolve_slot_injective_witness :
    ((0 : Nat) = 0 ∧ SlotRole.primary = SlotRole.primary) ∧
    build devs0 regs0 slotsAliased = .error .SlotAliasing := by
  constructor
  · exact (resolve_slot_injective devs0 regs0 slots0).1 table0 0 .primary 0
      .primary 10 rfl rfl rfl
  · exact (resolve_slot_injective devs0 regs0 slotsAliased).2
      ⟨⟨0, by decide⟩, ⟨1, by decide⟩, by decide, by decide⟩ rfl rfl rfl

/-- C4: for every region of a successfully built table, `sector_at` fails
with `OutOfRange` exactly when the byte offset reaches the region size, and
otherwise returns a sector index with boundaries containing the offset;
the sector boundaries are consecutive partial sums of the sector geometry,
the geometry sums to the region size (so the sectors cover the region with
no gaps), and the containing sector index is unique (no overlaps). -/
theorem sector_at_spec {devs : List DeviceDescriptor}
    {regs : List RegionDescriptor} {slots : List (SlotKey × Nat)}
    {t : FlashMap} (hb : build devs regs slots = .ok t) {rid : Nat}
    {r : RegionDescriptor} (hl : lookup t rid = .ok r) (off : Nat) :
    (r.size ≤ off → sector_at t rid off = .error .OutOfRange) ∧
    (off < r.size → ∃ k lo hi,
      sector_at t rid off = .ok (k, lo, hi) ∧
      lo ≤ off ∧ off < hi ∧ k < r.sectors.length ∧
      lo = (r.sectors.take k).sum ∧ hi = (r.sectors.take (k + 1)).sum ∧
      hi ≤ r.size ∧ r.sectors.sum = r.size ∧
      (∀ k2, (r.sectors.take k2).sum ≤ off →
        off < (r.sectors.take (k2 + 1)).sum → k2 = k)) := by
  obtain ⟨hteq, -, -, hsz, -⟩ := build_eq_ok hb
  have hmem := (lookup_eq_ok hl).1
  have hval : regionSizeValid r = true := by
    subst hteq
    simp only [FlashMap.regions] at hmem
    exact List.all_eq_true.mp hsz r hmem
  simp only [regionSizeValid, decide_eq_true_eq] at hval
  obtain ⟨hpos, hsum, hsec⟩ := hval
  constructor
  · intro hge
    unfold sector_at
    rw [hl]
    exact if_neg (by omega)
  · intro hlt
    obtain ⟨k, hk, heq, hlo, hhi⟩ :=
      sectorAtAux_spec r.sectors off 0 0 (Nat.zero_le off)
        (by rw [hsum]; omega)
    simp only [Nat.zero_add] at heq hlo hhi
    refine ⟨k, (r.sectors.take k).sum, (r.sectors.take (k + 1)).sum,
      ?_, hlo, hhi, hk, rfl, rfl, ?_, hsum, ?_⟩
    · unfold sector_at
      rw [hl]
      show (if off < r.size then
          match sectorAtAux r.sectors off 0 0 with
          | some v => Except.ok v
          | none => Except.error FlashError.OutOfRange
        else Except.error FlashError.OutOfRange) = _
      rw [if_pos hlt, heq]
    · calc (r.sectors.take (k + 1)).sum
          ≤ (r.sectors.take r.sectors.length).sum :=
            take_sum_mono r.sectors hk
        _ = r.sectors.sum := by rw [List.take_length]
        _ = r.size := hsum
    · intro k2 h1 h2
      exact sector_unique h1 h2 hlo hhi

/-- Witness for C4: in the scenario table, byte offset 5000 of region D
(two 4096-byte sectors) lies in sector 1 with boundaries [4096, 8192), and
offset 8192 is out of range. -/
theorem sector_at_spec_witness :
    build devs0 regs0 slots0 = .ok table0 ∧
    lookup table0 12 = .ok regD ∧
    sector_at table0 12 8192 = .error .OutOfRange ∧
    (∃ k lo hi,
      sector_at table0 12 5000 = .ok (k, lo, hi) ∧
      lo ≤ 5000 ∧ 5000 < hi ∧ k < regD.sectors.length ∧
      lo = (regD.sectors.take k).sum ∧ hi = (regD.sectors.take (k + 1)).sum ∧
      hi ≤ regD.size ∧ regD.sectors.sum = regD.size ∧
      (∀ k2, (regD.sectors.take k2).sum ≤ 5000 →
        5000 < (regD.sectors.take (k2 + 1)).sum → k2 = k)) := by
  refine ⟨rfl, rfl, ?_, ?_⟩
  · exact (sector_at_spec (rfl : build devs0 regs0 slots0 = .ok table0)
      (rfl : lookup table0 12 = .ok regD) 8192).1 (by decide)
  · exact (sector_at_spec (rfl : build devs0 regs0 slots0 = .ok table0)
      (rfl : lookup table0 12 = .ok regD) 5000).2 (by decide)

/-- C5 counterexample: the spec's literal scenario erase(A_id, 100, 4096)
asks for 4096 bytes starting at offset 100 of region A, whose size is
4096; since 100 + 4096 > 4096 the common bounds precondition fails first
and the call fails with `OutOfRange`, not `AlignmentViolation`. -/
theorem erase_scenario_counterexample :
    erase table0 10 100 4096 = .error .OutOfRange ∧
    ¬ erase table0 10 100 4096 = .error .AlignmentViolation :=
  ⟨by decide, by decide⟩

/-- C5 (amended): for every in-range request, write fails with
`AlignmentViolation` unless offset and length are both multiples of the
device's write-alignment unit, and erase fails with `AlignmentViolation`
unless offset and offset + length fall on the enclosing sector boundaries
as computed by `sector_at`; an erase at offset 100 with sector size 4096
fails `AlignmentViolation` on a region large enough to contain the request
(region D, size 8192) — on region A itself the spec scenario's request is
out of range. -/
theorem write_erase_alignment :
    (∀ t rid off len r d, lookup t rid = .ok r → off + len ≤ r.size →
      t.devices.find? (fun x => x.id == r.device) = some d →
      ¬ (off % d.writeAlign = 0 ∧ len % d.writeAlign = 0) →
      write t rid off len = .error .AlignmentViolation) ∧
    (∀ t rid off len r k lo hi, lookup t rid = .ok r →
      off + len ≤ r.size → sector_at t rid off = .ok (k, lo, hi) →
      off ≠ lo → erase t rid off len = .error .AlignmentViolation) ∧
    (∀ t rid off len r k lo hi k2 lo2 hi2, lookup t rid = .ok r →
      off + len ≤ r.size → sector_at t rid off = .ok (k, lo, hi) →
      off = lo → sector_at t rid (off + len - 1) = .ok (k2, lo2, hi2) →
      off + len ≠ hi2 →
      erase t rid off len = .error .AlignmentViolation) ∧
    erase table0 12 100 4096 = .error .AlignmentViolation := by
  refine ⟨?_, ?_, ?_, by decide⟩
  · intro t rid off len r d hl hle hd halign
    unfold write
    rw [hl]
    show (if off + len ≤ r.size then
        match t.devices.find? (fun x => x.id == r.device) with
        | none => Except.error FlashError.UnknownDevice
        | some d =>
          if off % d.writeAlign = 0 ∧ len % d.writeAlign = 0 then
            Except.ok (r.device, r.offset + off, len)
          else Except.error FlashError.AlignmentViolation
      else Except.error FlashError.OutOfRange) = _
    rw [if_pos hle, hd]
    exact if_neg halign
  · intro t rid off len r k lo hi hl hle hsec hne
    unfold erase
    rw [hl]
    show (if off + len ≤ r.size then
        match sector_at t rid off with
        | .error e => Except.error e
        | .ok (_, lo, _) =>
          if off = lo then
            match sector_at t rid (off + len - 1) with
            | .error e => Except.error e
            | .ok (_, _, hi) =>
              if off + len = hi then Except.ok (r.device, r.offset + off, len)
              else Except.error FlashError.AlignmentViolation
          else Except.error FlashError.AlignmentViolation
      else Except.error FlashError.OutOfRange) = _
    rw [if_pos hle, hsec]
    exact if_neg hne
  · intro t rid off len r k lo hi k2 lo2 hi2 hl hle hsec hoff hsec2 hne
    unfold erase
    rw [hl]
    show (if off + len ≤ r.size then
        match sector_at t rid off with
        | .error e => Except.error e
        | .ok (_, lo, _) =>
          if off = lo then
            match sector_at t rid (off + len - 1) with
            | .error e => Except.error e
            | .ok (_, _, hi) =>
              if off + len = hi then Except.ok (r.device, r.offset + off, len)
              else Except.error FlashError.AlignmentViolation
          else Except.error FlashError.AlignmentViolation
      else Except.error FlashError.OutOfRange) = _
    rw [if_pos hle, hsec]
    show (if off = lo then
        match sector_at t rid (off + len - 1) with
        | .error e => Except.error e
        | .ok (_, _, hi) =>
          if off + len = hi then Except.ok (r.device, r.offset + off, len)
          else Except.error FlashError.AlignmentViolation
      else Except.error FlashError.AlignmentViolation) = _
    rw [if_pos hoff, hsec2]
    exact if_neg hne

/-- Witness for C5 (amended): on the scenario table, a write at offset 100
against alignment unit 512 and an in-range erase at non-boundary offset
100 both fail with `AlignmentViolation`. -/
theorem write_erase_alignment_witness :
    lookup table0 10 = .ok regA ∧
    write table0 10 100 512 = .error .AlignmentViolation ∧
    erase table0 12 100 4096 = .error .AlignmentViolation := by
  refine ⟨rfl, ?_, ?_⟩
  · exact write_erase_alignment.1 table0 10 100 512 regA dev0 rfl
      (by decide) rfl (by decide)
  · exact write_erase_alignment.2.1 table0 12 100 4096 regD 0 0 4096 rfl
      (by decide) (by decide) (by decide)

/-- C6: base-address resolution returns the device's base address on
success (return code 0, address stored through the out-parameter), fails
with `UnknownDevice` when the id is not registered, and fails with
`NotMemoryMapped` when the registered device has no linear address; the
two failure codes are nonzero. -/
theorem resolve_base_spec (devs : List DeviceDescriptor) (fd_id ret : Nat) :
    ((∀ d ∈ devs, d.id ≠ fd_id) →
      resolve_base devs fd_id = .error .UnknownDevice ∧
      flash_device_base devs fd_id ret = (-19, ret)) ∧
    (∀ d, devs.find? (fun x => x.id == fd_id) = some d → d.base = none →
      resolve_base devs fd_id = .error .NotMemoryMapped ∧
      flash_device_base devs fd_id ret = (-22, ret)) ∧
    (∀ d b, devs.find? (fun x => x.id == fd_id) = some d →
      d.base = some b →
      resolve_base devs fd_id = .ok b ∧
      flash_device_base devs fd_id ret = (0, b)) ∧
    (-19 : Int) ≠ 0 ∧ (-22 : Int) ≠ 0 := by
  refine ⟨?_, ?_, ?_, by decide, by decide⟩
  · intro hall
    have hf : devs.find? (fun x => x.id == fd_id) = none := by
      rw [List.find?_eq_none]
      intro d hd
      simpa using hall d hd
    have h1 : resolve_base devs fd_id = .error .UnknownDevice := by
      unfold resolve_base
      rw [hf]
    refine ⟨h1, ?_⟩
    unfold flash_device_base
    rw [h1]
  · intro d hfind hbase
    have h1 : resolve_base devs fd_id = .error .NotMemoryMapped := by
      unfold resolve_base
      rw [hfind]
      show (match d.base with
        | none => Except.error FlashError.NotMemoryMapped
        | some b => Except.ok b) = _
      rw [hbase]
    refine ⟨h1, ?_⟩
    unfold flash_device_base
    rw [h1]
  · intro d b hfind hbase
    have h1 : resolve_base devs fd_id = .ok b := by
      unfold resolve_base
      rw [hfind]
      show (match d.base with
        | none => Except.error FlashError.NotMemoryMapped
        | some b => Except.ok b) = _
      rw [hbase]
    refine ⟨h1, ?_⟩
    unfold flash_device_base
    rw [h1]

/-- Witness for C6: in the scenario registry, device 0 resolves to its
base address, device 1 is registered without a linear address, and device
7 is unknown. -/
theorem resolve_base_spec_witness :
    (resolve_base devs0 7 = .error .UnknownDevice ∧
      flash_device_base devs0 7 999 = (-19, 999)) ∧
    (resolve_base devs0 1 = .error .NotMemoryMapped ∧
      flash_device_base devs0 1 999 = (-22, 999)) ∧
    (resolve_base devs0 0 = .ok 268435456 ∧
      flash_device_base devs0 0 999 = (0, 268435456)) := by
  refine ⟨?_, ?_, ?_⟩
  · exact (resolve_base_spec devs0 7 999).1 (by decide)
  · exact (resolve_base_spec devs0 1 999).2.1 dev1 rfl rfl
  · exact (resolve_base_spec devs0 0 999).2.2.1 dev0 268435456 rfl rfl

/-- C7: for a fixed built table, slot resolution is deterministic — two
calls with the same arguments return the same region id, both through
`resolve_slot` and through the header's single-argument
`flash_area_id_from_image_slot`. -/
theorem resolve_slot_deterministic (t : FlashMap) (i1 i2 : Nat)
    (ro1 ro2 : SlotRole) (s1 s2 : Nat) (hi : i1 = i2) (hro : ro1 = ro2)
    (hs : s1 = s2) :
    resolve_slot t i1 ro1 = resolve_slot t i2 ro2 ∧
    flash_area_id_from_image_slot t s1 = flash_area_id_from_image_slot t s2 := by
  subst hi
  subst hro
  subst hs
  exact ⟨rfl, rfl⟩

/-- Witness for C7 at the scenario table and the primary slot. -/
theorem resolve_slot_deterministic_witness :
    (0 : Nat) = 0 ∧
    (resolve_slot table0 0 .primary = resolve_slot table0 0 .primary ∧
     flash_area_id_from_image_slot table0 0 =
       flash_area_id_from_image_slot table0 0) :=
  ⟨rfl, resolve_slot_deterministic table0 0 0 .primary .primary 0 0
    rfl rfl rfl⟩

/-- C8 counterexample: the value 5 inhabits both declared interface value
spaces at once — the header identifies devices by raw `uint8_t` and
regions/slots by raw `int`, not by distinct newtype identifiers, so a
device id is accepted where a region id is expected rather than being a
compile-time type error. -/
theorem id_types_counterexample : deviceIdValue 5 ∧ areaIdValue 5 :=
  ⟨⟨by decide, by decide⟩, ⟨by decide, by decide⟩⟩

/-- C8 (amended): at the public interface, device identifiers are raw
`uint8_t` values and region identifiers raw `int` values; every device-id
value is also a valid region-id value (C's integer conversions accept it),
so mixing the two is not prevented by the types. -/
theorem id_types_overlap : ∀ z : Int, deviceIdValue z → areaIdValue z := by
  intro z hz
  obtain ⟨h1, h2⟩ := hz
  exact ⟨by omega, by omega⟩

/-- Witness for C8 (amended) at the device-id value 7. -/
theorem id_types_overlap_witness : areaIdValue 7 :=
  id_types_overlap 7 ⟨by decide, by decide⟩

/-- C9: whenever `flash_device_base` returns a nonzero code, the value
behind the out-parameter is unchanged; the base address is stored only on
the 0-returning success path. -/
theorem flash_device_base_frame (devs : List DeviceDescriptor)
    (fd_id ret : Nat) (c : Int) (v : Nat)
    (h : flash_device_base devs fd_id ret = (c, v)) (hc : c ≠ 0) :
    v = ret := by
  unfold flash_device_base at h
  cases hr : resolve_base devs fd_id with
  | ok b =>
    rw [hr] at h
    simp only [Prod.mk.injEq] at h
    exact absurd h.1.symm hc
  | error e =>
    rw [hr] at h
    cases e <;> simp_all

/-- Witness for C9: the failing call on unknown device 7 leaves the
out-parameter value 999 in place. -/
theorem flash_device_base_frame_witness :
    flash_device_base devs0 7 999 = (-19, 999) ∧ (-19 : Int) ≠ 0 ∧
    (999 : Nat) = 999 :=
  ⟨by decide, by decide,
    flash_device_base_frame devs0 7 999 (-19) 999 (by decide) (by decide)⟩

/-- C10: the `fd_id` parameter of `flash_device_base` is declared
`uint8_t`, so the resolvable device-id space is bounded to 0..255 and a
wider caller-supplied integer is reduced modulo 2^8 at the interface
before resolution. -/
theorem fd_id_uint8 (z : Int) :
    fd_id_of_caller z < 256 ∧
    fd_id_of_caller z = (z % 2 ^ 8).toNat ∧
    (∀ devs ret, flash_device_base devs (fd_id_of_caller z) ret =
      flash_device_base devs (fd_id_of_caller (z % 2 ^ 8)) ret) := by
  have h256 : (2 : Int) ^ 8 = 256 := by norm_num
  have h1 : 0 ≤ z % 256 := Int.emod_nonneg z (by norm_num)
  have h2 : z % 256 < 256 := Int.emod_lt_of_pos z (by norm_num)
  refine ⟨by unfold fd_id_of_caller; omega, by rw [h256]; rfl, ?_⟩
  intro devs ret
  have heq : fd_id_of_caller (z % 2 ^ 8) = fd_id_of_caller z := by
    unfold fd_id_of_caller
    rw [h256, Int.emod_emod_of_dvd z dvd_rfl]
  rw [heq]

/-- Witness for C10 at the wider caller value 300, which reaches the
interface as 44. -/
theorem fd_id_uint8_witness :
    fd_id_of_caller 300 < 256 ∧
    fd_id_of_caller 300 = ((300 : Int) % 2 ^ 8).toNat ∧
    (∀ devs ret, flash_device_base devs (fd_id_of_caller 300) ret =
      flash_device_base devs (fd_id_of_caller (300 % 2 ^ 8)) ret) :=
  fd_id_uint8 300

end FMap
